import Mathlib

/-!
Verification development for the `pydy-tutorial-human-standing` controls
notebook (`notebooks/n09_control.ipynb`).

The notebook linearizes the symbolic equations of motion of a standing
human about the upright equilibrium, checks controllability, solves the
continuous algebraic Riccati equation, and forms the LQR feedback gain
`K = dot(dot(inv(R), B.T), S)` together with the control law
`u(t) = -K x(t)`.

We shallowly embed the notebook data and cell computations:

* symbolic expressions (sympy terms appearing in the equations of motion)
  as an inductive `Expr` with evaluation and a formal derivative, proved
  correct against the Mathlib `HasDerivAt` predicate;
* Python dictionaries built by `dict(zip(...))` as association lists;
* numeric matrices as `Matrix (Fin n) (Fin m) ℚ` (the notebook float
  arrays idealized as exact rationals), with `eye`, `dot`, transpose and
  `inv` mirroring the NumPy calls the notebook makes;
* the external library calls (the sympy `Linearizer.linearize`, the scipy
  `solve_continuous_are`, `utils.controllable`, `odeint`) by their
  documented contracts, since their code is not part of this repository;
* the straight-line cell sequence itself as a list of cells with a step
  function, an inductive execution relation, and per-cell effect traces.
-/

namespace HumanStanding

open Matrix

/-- Symbols of the model: generalized coordinates, generalized speeds,
constants and specified inputs are sympy symbols; we name them by strings. -/
abbrev Sym := String

/-! ## Symbolic expressions

The equations of motion coming out of `KanesMethod` are sympy expressions
in the coordinates, speeds, constants and specified inputs.  The notebook
never builds such expressions itself; it only differentiates and
substitutes into them through `Linearizer.linearize`.  We model the
expression terms needed for that. -/

/-- Symbolic scalar expressions (model of the sympy terms occurring in the
equations of motion): rational constants, symbols, sums, products and
negation. -/
inductive Expr where
  | const : ℚ → Expr
  | var : Sym → Expr
  | add : Expr → Expr → Expr
  | mul : Expr → Expr → Expr
  | neg : Expr → Expr
deriving DecidableEq

/-- Evaluate an expression in an environment assigning values to symbols. -/
def Expr.eval {α : Type} [Field α] (env : Sym → α) : Expr → α
  | .const q => (q : α)
  | .var s => env s
  | .add a b => a.eval env + b.eval env
  | .mul a b => a.eval env * b.eval env
  | .neg a => -(a.eval env)

/-- Formal derivative of an expression with respect to the symbol `x`
(model of the sympy `diff` routine, which `Linearizer.linearize` uses to build the
Jacobians). -/
def Expr.deriv (x : Sym) : Expr → Expr
  | .const _ => .const 0
  | .var s => if s = x then .const 1 else .const 0
  | .add a b => .add (a.deriv x) (b.deriv x)
  | .mul a b => .add (.mul (a.deriv x) b) (.mul a (b.deriv x))
  | .neg a => .neg (a.deriv x)

/-! ## Python dictionaries

`equilibrium_dict = dict(zip(coordinates + speeds, equilibrium_point))`
and `parameter_dict = dict(zip(constants, numerical_constants))` are plain
finite maps; we model them as association lists with lookup. -/

/-- Lookup in an association list (model of Python `dict` lookup for
dicts built by `dict(zip(keys, values))`; every key the notebook looks up
carries the same value at each occurrence, so first- versus last-wins is
immaterial). -/
def dictLookup (s : Sym) : List (Sym × ℚ) → Option ℚ
  | [] => none
  | (k, v) :: rest => if k = s then some v else dictLookup s rest

/-- The numeric environment an operating-point substitution induces: the
value a symbol is mapped to by the dictionaries, and `0` for symbols the
dictionaries do not mention. -/
def envOf (d : List (Sym × ℚ)) : Sym → ℚ :=
  fun s => (dictLookup s d).getD 0

/-- Cell `equilibrium_point = zeros(len(coordinates + speeds))`. -/
def equilibrium_point (coordinates speeds : List Sym) : List ℚ :=
  List.replicate (coordinates ++ speeds).length 0

/-- Cell `equilibrium_dict = dict(zip(coordinates + speeds, equilibrium_point))`. -/
def equilibrium_dict (coordinates speeds : List Sym) : List (Sym × ℚ) :=
  (coordinates ++ speeds).zip (equilibrium_point coordinates speeds)

/-! ## Numeric matrices and the NumPy operations the notebook uses -/

/-- NumPy `eye(k)`: the `k × k` identity matrix (cells `Q = eye(6)` and
`R = eye(3)`). -/
def eye (k : ℕ) : Matrix (Fin k) (Fin k) ℚ := 1

/-- NumPy `dot` on two-dimensional arrays: the matrix product. -/
def dot {a b c : ℕ} (X : Matrix (Fin a) (Fin b) ℚ) (Y : Matrix (Fin b) (Fin c) ℚ) :
    Matrix (Fin a) (Fin c) ℚ := X * Y

/-- Model of `numpy.linalg.inv`: the matrix inverse, computed here through
the adjugate; a singular argument (where NumPy raises `LinAlgError`) is
mapped to `0`, and the fallible behaviour itself is modelled separately in
the pipeline of library calls. -/
def inv {k : ℕ} (M : Matrix (Fin k) (Fin k) ℚ) : Matrix (Fin k) (Fin k) ℚ :=
  if M.det = 0 then 0 else M.det⁻¹ • M.adjugate

/-- Cell `Q = eye(6)`: the state-error weighting matrix. -/
def Q : Matrix (Fin 6) (Fin 6) ℚ := eye 6

/-- Cell `R = eye(3)`: the control-effort weighting matrix. -/
def R : Matrix (Fin 3) (Fin 3) ℚ := eye 3

/-- Cell `K = dot(dot(inv(R), B.T), S)`: the feedback gain, as a function
of the linearized input matrix `B` and the Riccati solution `S` (the
notebook value of `R` is the fixed `eye(3)` above). -/
def K (B : Matrix (Fin 6) (Fin 3) ℚ) (S : Matrix (Fin 6) (Fin 6) ℚ) :
    Matrix (Fin 3) (Fin 6) ℚ :=
  dot (dot (inv R) Bᵀ) S

/-- The continuous algebraic Riccati equation exactly as the notebook
states it: `0 = -S A - Aᵀ S + S B R⁻¹ Bᵀ S - Q`.  This is the documented
contract of the scipy routine `solve_continuous_are`, whose returned `S` satisfies
it. -/
def care (A : Matrix (Fin 6) (Fin 6) ℚ) (B : Matrix (Fin 6) (Fin 3) ℚ)
    (S : Matrix (Fin 6) (Fin 6) ℚ) : Prop :=
  0 = -(dot S A) - dot Aᵀ S + dot (dot (dot (dot S B) (inv R)) Bᵀ) S - Q

/-! ## The linearizer

`kane.to_linearizer()` yields a sympy `Linearizer` holding the generalized
equations of motion, the state ordering, and the input ordering `r` (which
sympy populates alphabetically).  Its `linearize` method is library code
outside this repository; we model it by its documented contract: with
`A_and_B=True` and an operating-point substitution it returns the
state-space pair `A = M⁻¹ f_A`, `B = M⁻¹ f_B` of Jacobians of the
explicit-form dynamics with respect to the states and the inputs,
evaluated at the operating point. -/

/-- Model of the sympy `Linearizer`: `f` is the explicit right-hand side of
`ẋ = f(x, u)` (mass matrix already folded in), `q` the state symbols in
state order, `r` the input symbols in input order. -/
structure Linearizer (n m : ℕ) where
  f : Fin n → Expr
  q : Fin n → Sym
  r : Fin m → Sym

/-- The state Jacobian evaluated in an environment: entry `(i, j)` is
`∂ f_i / ∂ q_j` at the operating point. -/
def linA {n m : ℕ} (l : Linearizer n m) (env : Sym → ℚ) :
    Matrix (Fin n) (Fin n) ℚ :=
  Matrix.of fun i j => ((l.f i).deriv (l.q j)).eval env

/-- The input Jacobian evaluated in an environment: entry `(i, j)` is
`∂ f_i / ∂ r_j` at the operating point. -/
def linB {n m : ℕ} (l : Linearizer n m) (env : Sym → ℚ) :
    Matrix (Fin n) (Fin m) ℚ :=
  Matrix.of fun i j => ((l.f i).deriv (l.r j)).eval env

/-- Modelled from the documented contract of the sympy method
`Linearizer.linearize` (library code, not part of this repository): with
`A_and_B=True` it returns the pair `(A, B)` of the state-space form
`Δẋ = A Δx + B Δu`, the Jacobians of the dynamics with respect to states
and inputs evaluated at the operating point `op_point` (a list of
dictionaries, as the notebook passes `[equilibrium_dict, parameter_dict]`).
The `A_and_B=False` form (the generalized `M`, `A`, `B` triple) is not
used by the notebook and is left unmodelled as `none`. -/
def Linearizer.linearize {n m : ℕ} (l : Linearizer n m)
    (op_point : List (List (Sym × ℚ))) (A_and_B : Bool) :
    Option (Matrix (Fin n) (Fin n) ℚ × Matrix (Fin n) (Fin m) ℚ) :=
  if A_and_B then
    some (linA l (envOf op_point.flatten), linB l (envOf op_point.flatten))
  else none

/-- Cell `linearizer.r = Matrix(specified)`: Python attribute assignment,
replacing the input ordering `r` and touching nothing else. -/
def setR {n m : ℕ} (l : Linearizer n m) (v : Fin m → Sym) : Linearizer n m :=
  ⟨l.f, l.q, v⟩

/-! ## The controller -/

/-- Cell `def controller(): return` exactly as shipped in the notebook: a
stub taking no parameters whose body is a docstring and a bare `return`,
so every invocation yields Python `None`.  We model the missing parameter
list by `Unit` and the `None` result by `Option` of the joint torques. -/
def controller (_ : Unit) : Option (Fin 3 → ℚ) := none

/-- Modelled from the spec: the exercise-solution snippet
`exercise_solutions/n09_control_controller-function.py` (repository code
not included under `src/`), loaded over the stub by `%load`.  Per the
notebook text it computes the specified joint torques from the current
state `x` and time `t` by the LQR law `u(t) = -K x(t)`. -/
def controller_solution (Kmat : Matrix (Fin 3) (Fin 6) ℚ)
    (x : Fin 6 → ℚ) (_t : ℚ) : Fin 3 → ℚ :=
  -(Kmat.mulVec x)

/-- The integrand of the LQR cost `J = 1/2 ∫ (xᵀ Q x + uᵀ R u) dt` stated
by the notebook, with the notebook weighting matrices `Q` and `R`. -/
def costRate (x : Fin 6 → ℚ) (u : Fin 3 → ℚ) : ℚ :=
  x ⬝ᵥ Q.mulVec x + u ⬝ᵥ R.mulVec u

/-- The rate of change of the candidate value function `x ↦ xᵀ S x` along
the linearized dynamics `ẋ = A x + B u`. -/
def valueRate (A : Matrix (Fin 6) (Fin 6) ℚ) (B : Matrix (Fin 6) (Fin 3) ℚ)
    (S : Matrix (Fin 6) (Fin 6) ℚ) (x : Fin 6 → ℚ) (u : Fin 3 → ℚ) : ℚ :=
  (A.mulVec x + B.mulVec u) ⬝ᵥ S.mulVec x + x ⬝ᵥ S.mulVec (A.mulVec x + B.mulVec u)

/-! ## The fallible library calls and their composition

The notebook wraps none of its library calls: there is no `try`/`except`
anywhere.  We model each external call as an `Except`-valued result and
the notebook as their monadic composition in cell order, with no recovery
combinator, so a failure of any call is the failure of the whole run. -/

/-- One run worth of external library behaviour.  Each field is the result
(or failure) of the corresponding call the notebook makes; the notebook
itself contributes only the glue between them. -/
structure Libs where
  linearize : Except String (Matrix (Fin 6) (Fin 6) ℚ × Matrix (Fin 6) (Fin 3) ℚ)
  controllable : Matrix (Fin 6) (Fin 6) ℚ → Matrix (Fin 6) (Fin 3) ℚ →
    Except String Bool
  solve_continuous_are : Matrix (Fin 6) (Fin 6) ℚ → Matrix (Fin 6) (Fin 3) ℚ →
    Matrix (Fin 6) (Fin 6) ℚ → Matrix (Fin 3) (Fin 3) ℚ →
    Except String (Matrix (Fin 6) (Fin 6) ℚ)
  invOf : Matrix (Fin 3) (Fin 3) ℚ → Except String (Matrix (Fin 3) (Fin 3) ℚ)
  odeint : Matrix (Fin 3) (Fin 6) ℚ → Except String (List (Fin 6 → ℚ))

/-- Everything a complete run produces: the linearized matrices, the
Riccati solution, the gain, and the integrated state trajectories. -/
structure PipelineOut where
  Av : Matrix (Fin 6) (Fin 6) ℚ
  Bv : Matrix (Fin 6) (Fin 3) ℚ
  Sv : Matrix (Fin 6) (Fin 6) ℚ
  Kv : Matrix (Fin 3) (Fin 6) ℚ
  yv : List (Fin 6 → ℚ)

/-- The notebook computation in cell order, with every library call left
unguarded: linearize, controllability check, Riccati solve, inversion of
`R`, gain formation, integration.  There is no error branch; each `←`
propagates an `Except.error` unchanged. -/
def runPipeline (L : Libs) : Except String PipelineOut := do
  let AB ← L.linearize
  let _isControllable ← L.controllable AB.1 AB.2
  let S ← L.solve_continuous_are AB.1 AB.2 Q R
  let Rinv ← L.invOf R
  let Kmat := dot (dot Rinv AB.2ᵀ) S
  let y ← L.odeint Kmat
  return ⟨AB.1, AB.2, S, Kmat, y⟩

/-- The first library failure a run encounters, stated from the spec side:
the error of the earliest call that fails, scanning the calls in cell
order.  The claim that failures surface unchanged is the statement that
`runPipeline` fails with exactly this error. -/
def firstLibError (L : Libs) : Option String :=
  match L.linearize with
  | .error e => some e
  | .ok AB =>
    match L.controllable AB.1 AB.2 with
    | .error e => some e
    | .ok _ =>
      match L.solve_continuous_are AB.1 AB.2 Q R with
      | .error e => some e
      | .ok S =>
        match L.invOf R with
        | .error e => some e
        | .ok Rinv =>
          match L.odeint (dot (dot Rinv AB.2ᵀ) S) with
          | .error e => some e
          | .ok _ => none

/-! ## The cell sequence as a deterministic state machine

The notebook is a straight line of cells over interpreter-global
variables.  We give the code cells of `n09_control.ipynb` as an inductive
type in source order, the interpreter-global bindings as a record of
optional values, cell execution as a pure step function, and runs as an
inductive big-step relation over cell lists. -/

/-- The code cells of the notebook, in source order.  Display-only cells
(bare trailing expressions, `help(...)`, plots) do not change the
interpreter-global bindings we track. -/
inductive Cell where
  | importsSetup        -- imports, `%matplotlib inline`, `rcParams`, `%precision`
  | cellEquilibriumPoint  -- `equilibrium_point = zeros(len(coordinates + speeds))`
  | cellEquilibriumDict   -- `equilibrium_dict = dict(zip(...))`
  | cellParameterDict     -- `%load` of the parameter_dict exercise solution
  | cellToLinearizer      -- `linearizer = kane.to_linearizer()`
  | cellCompareR          -- `linearizer.r == Matrix(specified)` (display only)
  | cellSetR              -- `linearizer.r = Matrix(specified)`
  | cellHelpLinearize     -- `help(linearizer.linearize)`
  | cellLinearize         -- `A, B = linearizer.linearize(op_point=..., A_and_B=True)`
  | cellMatrix2numpy      -- `A = matrix2numpy(A, ...)`, `B = matrix2numpy(B, ...)`
  | cellShowA             -- `A`
  | cellShowB             -- `B`
  | cellControllable      -- `controllable(A, B)`
  | cellQ                 -- `Q = eye(6)`
  | cellR                 -- `R = eye(3)`
  | cellSK                -- `S = solve_continuous_are(...)`, `K = dot(dot(inv(R), B.T), S)`
  | cellHelpRHS           -- `help(right_hand_side)`
  | cellControllerStub    -- `def controller(): return`
  | cellLoadController    -- `%load` of the controller exercise solution
  | cellIntegrate         -- `%load` + `odeint` of the equations of motion
  | cellPlotAngles        -- `%load` + plot of the coordinates
  | cellPlotVelocities    -- `%load` + plot of the speeds
  | cellSetTrajectories   -- `scene.states_trajectories = y`
  | cellDisplayIPython    -- `scene.display_ipython()`
deriving DecidableEq

/-- The interpreter-global bindings the notebook creates, each `none`
until its defining cell has run. -/
structure NotebookState where
  ep : Option (List ℚ)
  eqdict : Option (List (Sym × ℚ))
  pdict : Option (List (Sym × ℚ))
  linzr : Option (Linearizer 6 3)
  ab : Option (Matrix (Fin 6) (Fin 6) ℚ × Matrix (Fin 6) (Fin 3) ℚ)
  qv : Option (Matrix (Fin 6) (Fin 6) ℚ)
  rv : Option (Matrix (Fin 3) (Fin 3) ℚ)
  sk : Option (Matrix (Fin 6) (Fin 6) ℚ × Matrix (Fin 3) (Fin 6) ℚ)
  ctrlLoaded : Bool
  yTraj : Option (List (Fin 6 → ℚ))
  sceneTraj : Option (List (Fin 6 → ℚ))

/-- The empty session before any cell has run. -/
def initState : NotebookState :=
  ⟨none, none, none, none, none, none, none, none, false, none, none⟩

/-- Everything a run starts from: the results of the previous notebooks
(coordinates, speeds, constants, the `KanesMethod` linearizer, the
`specified` input order) and the deterministic external solvers.  Two runs
with equal `Inputs` are runs "started from the same inputs". -/
structure Inputs where
  coordinates : List Sym
  speeds : List Sym
  constantsDict : List (Sym × ℚ)
  kaneLinearizer : Linearizer 6 3
  specified : Fin 3 → Sym
  solveCARE : Matrix (Fin 6) (Fin 6) ℚ → Matrix (Fin 6) (Fin 3) ℚ →
    Matrix (Fin 6) (Fin 6) ℚ → Matrix (Fin 3) (Fin 3) ℚ → Matrix (Fin 6) (Fin 6) ℚ
  integrate : Matrix (Fin 3) (Fin 6) ℚ → List (Fin 6 → ℚ)

/-- `matrix2numpy(·, dtype=float)`: the cast of an already-numeric sympy
matrix to a NumPy array, the identity on our idealized rational matrices. -/
def matrix2numpy {a b : ℕ} (M : Matrix (Fin a) (Fin b) ℚ) :
    Matrix (Fin a) (Fin b) ℚ := M

/-- Execute one cell: the assignment (if any) the cell performs on the
interpreter-global bindings, exactly as written in the source. -/
def stepCell (I : Inputs) (s : NotebookState) : Cell → NotebookState
  | .importsSetup => s
  | .cellEquilibriumPoint =>
      { s with ep := some (equilibrium_point I.coordinates I.speeds) }
  | .cellEquilibriumDict =>
      match s.ep with
      | some ep => { s with eqdict := some ((I.coordinates ++ I.speeds).zip ep) }
      | none => s
  | .cellParameterDict => { s with pdict := some I.constantsDict }
  | .cellToLinearizer => { s with linzr := some I.kaneLinearizer }
  | .cellCompareR => s
  | .cellSetR => { s with linzr := s.linzr.map (fun l => setR l I.specified) }
  | .cellHelpLinearize => s
  | .cellLinearize =>
      match s.linzr, s.eqdict, s.pdict with
      | some l, some ed, some pd => { s with ab := l.linearize [ed, pd] true }
      | _, _, _ => s
  | .cellMatrix2numpy =>
      { s with ab := s.ab.map (fun p => (matrix2numpy p.1, matrix2numpy p.2)) }
  | .cellShowA => s
  | .cellShowB => s
  | .cellControllable => s
  | .cellQ => { s with qv := some Q }
  | .cellR => { s with rv := some R }
  | .cellSK =>
      match s.ab, s.qv, s.rv with
      | some p, some q, some r =>
          let S := I.solveCARE p.1 p.2 q r
          { s with sk := some (S, dot (dot (inv r) p.2ᵀ) S) }
      | _, _, _ => s
  | .cellHelpRHS => s
  | .cellControllerStub => { s with ctrlLoaded := false }
  | .cellLoadController => { s with ctrlLoaded := true }
  | .cellIntegrate =>
      match s.sk with
      | some p => { s with yTraj := some (I.integrate p.2) }
      | none => s
  | .cellPlotAngles => s
  | .cellPlotVelocities => s
  | .cellSetTrajectories => { s with sceneTraj := s.yTraj }
  | .cellDisplayIPython => s

/-- Run a list of cells left to right. -/
def runCells (I : Inputs) (s : NotebookState) : List Cell → NotebookState
  | [] => s
  | c :: cs => runCells I (stepCell I s c) cs

/-- Big-step execution of a cell list: the session executes cells
sequentially and synchronously; each step is the pure `stepCell`. -/
inductive Exec (I : Inputs) : NotebookState → List Cell → NotebookState → Prop where
  | nil : ∀ s, Exec I s [] s
  | cons : ∀ s c cs t, Exec I (stepCell I s c) cs t → Exec I s (c :: cs) t

/-- The full cell sequence of `n09_control.ipynb`, in source order. -/
def program : List Cell :=
  [.importsSetup, .cellEquilibriumPoint, .cellEquilibriumDict,
   .cellParameterDict, .cellToLinearizer, .cellCompareR, .cellSetR,
   .cellHelpLinearize, .cellLinearize, .cellMatrix2numpy, .cellShowA,
   .cellShowB, .cellControllable, .cellQ, .cellR, .cellSK, .cellHelpRHS,
   .cellControllerStub, .cellLoadController, .cellIntegrate,
   .cellPlotAngles, .cellPlotVelocities, .cellSetTrajectories,
   .cellDisplayIPython]

/-! ## Effects of the cells

Beyond mutating interpreter-global bindings, a cell can show rich output
in the session or touch the world outside the session.  We record, per
cell, which such effects its source performs. -/

/-- External effects a cell could perform.  The last three constructors
are the effects the notebook never performs; they are present so that
their absence is a statement about the program rather than about the
vocabulary. -/
inductive Effect where
  | display       -- in-session display: echoed values, help text, plots, the 3D animation
  | fileRead      -- `%load` reading an exercise-solution file of the repository
  | fileWrite
  | persistState
  | networkSend
deriving DecidableEq

/-- The effects each cell performs, read off the source: a trailing bare
expression, `help(...)`, a plot or `scene.display_ipython()` displays;
`%load` reads a solution file; nothing else touches the outside. -/
def cellEffects : Cell → List Effect
  | .importsSetup => []
  | .cellEquilibriumPoint => [.display]
  | .cellEquilibriumDict => [.display]
  | .cellParameterDict => [.fileRead]
  | .cellToLinearizer => []
  | .cellCompareR => [.display]
  | .cellSetR => []
  | .cellHelpLinearize => [.display]
  | .cellLinearize => []
  | .cellMatrix2numpy => []
  | .cellShowA => [.display]
  | .cellShowB => [.display]
  | .cellControllable => [.display]
  | .cellQ => [.display]
  | .cellR => [.display]
  | .cellSK => [.display]
  | .cellHelpRHS => [.display]
  | .cellControllerStub => []
  | .cellLoadController => [.fileRead]
  | .cellIntegrate => [.fileRead]
  | .cellPlotAngles => [.fileRead, .display]
  | .cellPlotVelocities => [.fileRead, .display]
  | .cellSetTrajectories => []
  | .cellDisplayIPython => [.display]

/-- The effect trace of the whole notebook. -/
def programEffects : List Effect :=
  (program.map cellEffects).flatten

/-! ## Provenance of the numeric matrices

Where each numeric matrix of the notebook comes from: a single external
library call, or standard array algebra (transpose, inverse, product) over
such results.  The constructor `originalAlgorithm` stands for a numerical
routine implemented by the repository itself; the claim is that it never
occurs. -/

/-- Provenance terms for the numeric matrices the notebook produces. -/
inductive MatOrigin where
  | libCall : String → MatOrigin
  | transposeOf : MatOrigin → MatOrigin
  | inverseOf : MatOrigin → MatOrigin
  | productOf : MatOrigin → MatOrigin → MatOrigin
  | originalAlgorithm : String → MatOrigin
deriving DecidableEq

/-- Provenance of `A`: `linearizer.linearize` followed by the
`matrix2numpy` cast, one external call chain. -/
def originA : MatOrigin := .libCall "linearizer.linearize; matrix2numpy"

/-- Provenance of `B`: the same external call chain as `A`. -/
def originB : MatOrigin := .libCall "linearizer.linearize; matrix2numpy"

/-- Provenance of `Q`: `numpy.eye(6)`. -/
def originQ : MatOrigin := .libCall "numpy.eye"

/-- Provenance of `R`: `numpy.eye(3)`. -/
def originR : MatOrigin := .libCall "numpy.eye"

/-- Provenance of `S`: `scipy.linalg.solve_continuous_are`. -/
def originS : MatOrigin := .libCall "scipy.linalg.solve_continuous_are"

/-- Provenance of `K = dot(dot(inv(R), B.T), S)`: array algebra alone over
the library results. -/
def originK : MatOrigin :=
  .productOf (.productOf (.inverseOf originR) (.transposeOf originB)) originS

/-- A provenance term is delegated when its leaves are external library
calls and its nodes are standard array algebra, with no originally
implemented numerical routine anywhere. -/
def delegated : MatOrigin → Bool
  | .libCall _ => true
  | .transposeOf a => delegated a
  | .inverseOf a => delegated a
  | .productOf a b => delegated a && delegated b
  | .originalAlgorithm _ => false

/-! ## Concrete instances used to exercise the theorems -/

/-- A concrete state matrix: the upper three states drift-free, the lower
three with damping `-1/2`. -/
def Aex : Matrix (Fin 6) (Fin 6) ℚ :=
  Matrix.of fun i j => if i = j ∧ 3 ≤ i.val then -(1 / 2) else 0

/-- A concrete input matrix: input `j` drives state `j` directly. -/
def Bex : Matrix (Fin 6) (Fin 3) ℚ :=
  Matrix.of fun i j => if i.val = j.val then 1 else 0

/-- A concrete Riccati solution: with `Aex`, `Bex` and the notebook
weights, the identity matrix solves the Riccati equation. -/
def Sex : Matrix (Fin 6) (Fin 6) ℚ := 1

/-- A concrete linearizer with one state and two inputs named
alphabetically, dynamics `ẋ = a + 2 b`. -/
def lex : Linearizer 1 2 :=
  ⟨fun _ => .add (.var "a") (.mul (.const 2) (.var "b")),
   fun _ => "x",
   !["a", "b"]⟩

/-- The reordered input list assigned to `lex`: the same two input
symbols, swapped. -/
def vex : Fin 2 → Sym := !["b", "a"]

/-- A concrete trivial linearizer of the notebook dimensions. -/
def lex6 : Linearizer 6 3 :=
  ⟨fun _ => .const 0, fun _ => "x", fun _ => "u"⟩

/-- Concrete run inputs for exercising the cell machine. -/
def Iex : Inputs :=
  ⟨["theta1"], ["omega1"], [], lex6, !["ta", "tk", "th"],
   fun _ _ _ _ => 1, fun _ => []⟩

/-! ## General lemmas about the embedded operations -/

/-- Evaluation commutes with the cast `ℚ → ℝ` of the environment. -/
theorem Expr.eval_ratCast (env : Sym → ℚ) : ∀ e : Expr,
    Expr.eval (fun s => ((env s : ℚ) : ℝ)) e = ((Expr.eval env e : ℚ) : ℝ) := by
  intro e
  induction e with
  | const q => simp [Expr.eval]
  | var s => simp [Expr.eval]
  | add a b iha ihb => simp [Expr.eval, iha, ihb]
  | mul a b iha ihb => simp [Expr.eval, iha, ihb]
  | neg a iha => simp [Expr.eval, iha]

/-- The formal derivative `Expr.deriv` is the true derivative: perturbing
the environment at the symbol `x` and evaluating is differentiable, with
derivative the evaluation of `Expr.deriv x`. -/
theorem Expr.hasDerivAt_eval (e : Expr) (x : Sym) (env : Sym → ℝ) :
    HasDerivAt (fun t : ℝ => Expr.eval (Function.update env x t) e)
      (Expr.eval env (e.deriv x)) (env x) := by
  induction e with
  | const q =>
      simpa [Expr.eval, Expr.deriv] using hasDerivAt_const (env x) ((q : ℝ))
  | var s =>
      by_cases hs : s = x
      · subst hs
        have : (fun t : ℝ => Expr.eval (Function.update env s t) (.var s)) =
            fun t : ℝ => t := by
          funext t; simp [Expr.eval]
        rw [this]
        simpa [Expr.eval, Expr.deriv] using hasDerivAt_id (env s)
      · have : (fun t : ℝ => Expr.eval (Function.update env x t) (.var s)) =
            fun _ : ℝ => env s := by
          funext t; simp [Expr.eval, Function.update_noteq hs]
        rw [this]
        simpa [Expr.eval, Expr.deriv, hs] using hasDerivAt_const (env x) (env s)
  | add a b iha ihb =>
      simpa [Expr.eval, Expr.deriv] using iha.add ihb
  | mul a b iha ihb =>
      have h := iha.mul ihb
      simpa [Expr.eval, Expr.deriv, Function.update_eq_self] using h
  | neg a iha =>
      simpa [Expr.eval, Expr.deriv] using iha.neg

theorem dictLookup_zip_replicate (s : Sym) :
    ∀ ks : List Sym, s ∈ ks →
      dictLookup s (ks.zip (List.replicate ks.length (0 : ℚ))) = some 0 := by
  intro ks
  induction ks with
  | nil => intro h; cases h
  | cons k rest ih =>
      intro hmem
      by_cases hk : k = s
      · simp [List.zip, dictLookup, hk]
      · have : s ∈ rest := by
          rcases List.mem_cons.mp hmem with h | h
          · exact absurd h.symm hk
          · exact h
        simpa [List.zip, dictLookup, hk] using ih this

theorem inv_mul_self {k : ℕ} (M : Matrix (Fin k) (Fin k) ℚ) (h : M.det ≠ 0) :
    M * inv M = 1 := by
  rw [inv, if_neg h, Matrix.mul_smul, Matrix.mul_adjugate, smul_smul,
    inv_mul_cancel₀ h, one_smul]

theorem inv_eye (k : ℕ) : inv (eye k) = eye k := by
  rw [inv, eye]
  simp

theorem K_eq (B : Matrix (Fin 6) (Fin 3) ℚ) (S : Matrix (Fin 6) (Fin 6) ℚ) :
    K B S = Bᵀ * S := by
  have h : inv R = 1 := inv_eye 3
  simp [K, dot, h]

theorem care_key {A : Matrix (Fin 6) (Fin 6) ℚ} {B : Matrix (Fin 6) (Fin 3) ℚ}
    {S : Matrix (Fin 6) (Fin 6) ℚ} (hcare : care A B S) :
    S * B * Bᵀ * S = S * A + Aᵀ * S + Q := by
  have h := hcare
  unfold care dot at h
  rw [show inv R = 1 from inv_eye 3, Matrix.mul_one] at h
  have h2 : S * B * Bᵀ * S - (S * A + Aᵀ * S + Q) =
      -(S * A) - Aᵀ * S + S * B * Bᵀ * S - Q := by abel
  exact sub_eq_zero.mp (h2.trans h.symm)

theorem qform_transfer {a b : ℕ} (M : Matrix (Fin a) (Fin b) ℚ)
    (w : Fin b → ℚ) (v : Fin a → ℚ) :
    M.mulVec w ⬝ᵥ v = w ⬝ᵥ Mᵀ.mulVec v := by
  rw [dotProduct_comm, Matrix.dotProduct_mulVec, Matrix.mulVec_transpose,
    dotProduct_comm]

theorem dotProduct_self_nonneg {k : ℕ} (v : Fin k → ℚ) : 0 ≤ v ⬝ᵥ v :=
  Finset.sum_nonneg fun i _ => mul_self_nonneg (v i)

/-- Completion of squares: when `S` is a symmetric solution of the Riccati
equation with the notebook weights, the cost integrand corrected by the
rate of the value function `xᵀ S x` is exactly the `R`-quadratic form of
the deviation of `u` from the LQR feedback `-K x`. -/
theorem completion_of_squares (A : Matrix (Fin 6) (Fin 6) ℚ)
    (B : Matrix (Fin 6) (Fin 3) ℚ) (S : Matrix (Fin 6) (Fin 6) ℚ)
    (hS : Sᵀ = S) (hcare : care A B S) (x : Fin 6 → ℚ) (u : Fin 3 → ℚ) :
    costRate x u + valueRate A B S x u =
      (u + (K B S).mulVec x) ⬝ᵥ R.mulVec (u + (K B S).mulVec x) := by
  have hSB : (Bᵀ * S)ᵀ = S * B := by
    rw [Matrix.transpose_mul, Matrix.transpose_transpose, hS]
  have hkey : S * B * (Bᵀ * S) = S * A + Aᵀ * S + 1 := by
    rw [← Matrix.mul_assoc]
    simpa [Q, eye] using care_key hcare
  have t1 : A.mulVec x ⬝ᵥ S.mulVec x = x ⬝ᵥ (Aᵀ * S).mulVec x := by
    rw [qform_transfer, Matrix.mulVec_mulVec]
  have t2 : B.mulVec u ⬝ᵥ S.mulVec x = u ⬝ᵥ (Bᵀ * S).mulVec x := by
    rw [qform_transfer, Matrix.mulVec_mulVec]
  have t3 : x ⬝ᵥ S.mulVec (A.mulVec x) = x ⬝ᵥ (S * A).mulVec x := by
    rw [Matrix.mulVec_mulVec]
  have t4 : x ⬝ᵥ S.mulVec (B.mulVec u) = u ⬝ᵥ (Bᵀ * S).mulVec x := by
    rw [Matrix.mulVec_mulVec, dotProduct_comm, qform_transfer,
      Matrix.transpose_mul, hS]
  have t6 : (Bᵀ * S).mulVec x ⬝ᵥ (Bᵀ * S).mulVec x =
      x ⬝ᵥ (S * A).mulVec x + x ⬝ᵥ (Aᵀ * S).mulVec x + x ⬝ᵥ x := by
    rw [qform_transfer, Matrix.mulVec_mulVec, hSB, hkey, Matrix.add_mulVec,
      Matrix.add_mulVec, Matrix.one_mulVec, dotProduct_add, dotProduct_add]
  have hQ : Q.mulVec x = x := Matrix.one_mulVec x
  have hR : ∀ w : Fin 3 → ℚ, R.mulVec w = w := fun w => Matrix.one_mulVec w
  simp only [costRate, valueRate, K_eq, hQ, hR]
  simp only [Matrix.mulVec_add, dotProduct_add, add_dotProduct]
  rw [t1, t2, t3, t4, t6, dotProduct_comm ((Bᵀ * S).mulVec x) u]
  ring

/-- The concrete matrices `Aex`, `Bex`, `Sex` satisfy the Riccati
equation with the notebook weights. -/
theorem care_ex : care Aex Bex Sex := by
  unfold care
  rw [show inv R = 1 from inv_eye 3]
  have hQ : Q = 1 := rfl
  simp only [dot, Sex, Matrix.one_mul, Matrix.mul_one, hQ]
  ext i j
  fin_cases i <;> fin_cases j <;>
    norm_num [Aex, Bex, Matrix.mul_apply, Matrix.sub_apply, Matrix.add_apply,
      Matrix.neg_apply, Matrix.transpose_apply, Matrix.one_apply,
      Matrix.zero_apply, Matrix.of_apply, Fin.sum_univ_succ, Fin.ext_iff]

theorem exec_runCells (I : Inputs) :
    ∀ (cs : List Cell) (s : NotebookState), Exec I s cs (runCells I s cs) := by
  intro cs
  induction cs with
  | nil => intro s; exact Exec.nil s
  | cons c cs ih => intro s; exact Exec.cons s c cs _ (ih (stepCell I s c))

/-! ## The claims -/

/-- C1: the feedback gain is obtained from the solution of the continuous
algebraic Riccati equation: whenever `S` satisfies
`0 = -S A - Aᵀ S + S B R⁻¹ Bᵀ S - Q` (and is symmetric, as the solver
guarantees), the computed `K = dot(dot(inv(R), B.T), S)` is the optimal
feedback gain `R⁻¹ Bᵀ S`: it equals that expression, it is the solution of
`R K = Bᵀ S`, and it satisfies the closed-loop optimality identity
`Q + Aᵀ S + S A = Kᵀ R K` characterizing the LQR gain. -/
theorem K_from_riccati_solution (A : Matrix (Fin 6) (Fin 6) ℚ)
    (B : Matrix (Fin 6) (Fin 3) ℚ) (S : Matrix (Fin 6) (Fin 6) ℚ)
    (hS : Sᵀ = S) (hcare : care A B S) :
    K B S = dot (dot (inv R) Bᵀ) S ∧
    dot R (K B S) = dot Bᵀ S ∧
    Q + dot Aᵀ S + dot S A = dot (dot (K B S)ᵀ R) (K B S) := by
  refine ⟨rfl, ?_, ?_⟩
  · show R * K B S = Bᵀ * S
    rw [K_eq, show R = (1 : Matrix (Fin 3) (Fin 3) ℚ) from rfl, Matrix.one_mul]
  · show Q + Aᵀ * S + S * A = (K B S)ᵀ * R * (K B S)
    rw [K_eq, show R = (1 : Matrix (Fin 3) (Fin 3) ℚ) from rfl, Matrix.mul_one,
      Matrix.transpose_mul, Matrix.transpose_transpose, hS, Matrix.mul_assoc,
      ← Matrix.mul_assoc S B, ← Matrix.mul_assoc (S * B) Bᵀ S, care_key hcare]
    abel

/-- Witness for C1 at the concrete Riccati solution `Sex = 1` for
`Aex`, `Bex`. -/
theorem K_from_riccati_solution_witness :
    (Sexᵀ = Sex ∧ care Aex Bex Sex) ∧ dot R (K Bex Sex) = dot Bexᵀ Sex :=
  ⟨⟨Matrix.transpose_one, care_ex⟩,
   (K_from_riccati_solution Aex Bex Sex Matrix.transpose_one care_ex).2.1⟩

/-- C2: the matrices `A` and `B` are the Jacobian linearization about the
upright equilibrium: `equilibrium_dict` maps every generalized coordinate
and speed to `0` (since `equilibrium_point = zeros(len(coordinates +
speeds))`), `linearizer.linearize` with `A_and_B=True` at
`[equilibrium_dict, parameter_dict]` returns the pair evaluated in the
induced environment, and entry `(i, j)` of `A` (resp. `B`) is the true
partial derivative, in the `HasDerivAt` sense, of the `i`-th equation of
motion with respect to the `j`-th state (resp. input) at the operating
point. -/
theorem AB_linearized_at_upright_equilibrium {n m : ℕ} (l : Linearizer n m)
    (coordinates speeds : List Sym) (parameter_dict : List (Sym × ℚ))
    (s : Sym) (hs : s ∈ coordinates ++ speeds) :
    dictLookup s (equilibrium_dict coordinates speeds) = some 0 ∧
    l.linearize [equilibrium_dict coordinates speeds, parameter_dict] true =
      some (linA l (envOf (equilibrium_dict coordinates speeds ++ parameter_dict)),
        linB l (envOf (equilibrium_dict coordinates speeds ++ parameter_dict))) ∧
    (∀ (env : Sym → ℚ) (i j : Fin n),
      HasDerivAt
        (fun t : ℝ =>
          Expr.eval (Function.update (fun w => ((env w : ℚ) : ℝ)) (l.q j) t) (l.f i))
        ((linA l env i j : ℚ) : ℝ) ((env (l.q j) : ℚ) : ℝ)) ∧
    (∀ (env : Sym → ℚ) (i : Fin n) (j : Fin m),
      HasDerivAt
        (fun t : ℝ =>
          Expr.eval (Function.update (fun w => ((env w : ℚ) : ℝ)) (l.r j) t) (l.f i))
        ((linB l env i j : ℚ) : ℝ) ((env (l.r j) : ℚ) : ℝ)) := by
  refine ⟨dictLookup_zip_replicate s (coordinates ++ speeds) hs, ?_, ?_, ?_⟩
  · simp [Linearizer.linearize]
  · intro env i j
    have h := Expr.hasDerivAt_eval (l.f i) (l.q j) (fun w => ((env w : ℚ) : ℝ))
    rw [Expr.eval_ratCast env ((l.f i).deriv (l.q j))] at h
    exact h
  · intro env i j
    have h := Expr.hasDerivAt_eval (l.f i) (l.r j) (fun w => ((env w : ℚ) : ℝ))
    rw [Expr.eval_ratCast env ((l.f i).deriv (l.r j))] at h
    exact h

/-- Witness for C2 at a concrete coordinate list and linearizer. -/
theorem AB_linearized_at_upright_equilibrium_witness :
    ("theta1" ∈ (["theta1"] ++ ["omega1"] : List Sym)) ∧
    dictLookup "theta1" (equilibrium_dict ["theta1"] ["omega1"]) = some 0 :=
  ⟨List.mem_append_left _ (List.mem_cons_self _ _),
   (AB_linearized_at_upright_equilibrium lex ["theta1"] ["omega1"] [] "theta1"
     (List.mem_append_left _ (List.mem_cons_self _ _))).1⟩

/-- C3: the loaded `controller` implements the LQR control law: for every
state `x` and time `t` it returns `u(t) = -K x(t)`, and this law minimizes
the quadratic cost integrand corrected by the rate of the value function
`xᵀ S x` (completion of squares: the corrected integrand equals the
`R`-quadratic form of `u + K x`, vanishes at `u = -K x`, and is
nonnegative for every `u`), which is the standard argument that `-K x`
minimizes `J = 1/2 ∫ (xᵀ Q x + uᵀ R u) dt`. -/
theorem controller_computes_lqr_torques (A : Matrix (Fin 6) (Fin 6) ℚ)
    (B : Matrix (Fin 6) (Fin 3) ℚ) (S : Matrix (Fin 6) (Fin 6) ℚ)
    (hS : Sᵀ = S) (hcare : care A B S) :
    (∀ x t, controller_solution (K B S) x t = -((K B S).mulVec x)) ∧
    (∀ x t, costRate x (controller_solution (K B S) x t) +
        valueRate A B S x (controller_solution (K B S) x t) = 0) ∧
    (∀ x u, costRate x u + valueRate A B S x u =
        (u + (K B S).mulVec x) ⬝ᵥ R.mulVec (u + (K B S).mulVec x) ∧
        0 ≤ costRate x u + valueRate A B S x u) := by
  refine ⟨fun x t => rfl, ?_, ?_⟩
  · intro x t
    rw [completion_of_squares A B S hS hcare]
    show (-((K B S).mulVec x) + (K B S).mulVec x) ⬝ᵥ
        R.mulVec (-((K B S).mulVec x) + (K B S).mulVec x) = 0
    rw [neg_add_cancel, Matrix.mulVec_zero, dotProduct_zero]
  · intro x u
    refine ⟨completion_of_squares A B S hS hcare x u, ?_⟩
    rw [completion_of_squares A B S hS hcare x u,
      show R.mulVec (u + (K B S).mulVec x) = u + (K B S).mulVec x from
        Matrix.one_mulVec _]
    exact dotProduct_self_nonneg _

/-- Witness for C3 at the concrete Riccati solution and a concrete state. -/
theorem controller_computes_lqr_torques_witness :
    (Sexᵀ = Sex ∧ care Aex Bex Sex) ∧
    costRate ![1, 0, 0, 0, 0, 0]
        (controller_solution (K Bex Sex) ![1, 0, 0, 0, 0, 0] 0) +
      valueRate Aex Bex Sex ![1, 0, 0, 0, 0, 0]
        (controller_solution (K Bex Sex) ![1, 0, 0, 0, 0, 0] 0) = 0 :=
  ⟨⟨Matrix.transpose_one, care_ex⟩,
   (controller_computes_lqr_torques Aex Bex Sex Matrix.transpose_one care_ex).2.1
     ![1, 0, 0, 0, 0, 0] 0⟩

/-- C4: no library failure is caught or transformed: the notebook fails
with error `e` exactly when the earliest failing library call fails with
`e`; the error text reaches the caller unchanged, with no error branch or
wrapper anywhere in the cell sequence. -/
theorem library_errors_propagate (L : Libs) (e : String) :
    runPipeline L = Except.error e ↔ firstLibError L = some e := by
  unfold runPipeline firstLibError
  rcases h1 : L.linearize with e1 | AB
  · simp [h1, bind, Except.bind]
  · rcases h2 : L.controllable AB.1 AB.2 with e2 | c
    · simp [h1, h2, bind, Except.bind]
    · rcases h3 : L.solve_continuous_are AB.1 AB.2 Q R with e3 | S
      · simp [h1, h2, h3, bind, Except.bind]
      · rcases h4 : L.invOf R with e4 | Rinv
        · simp [h1, h2, h3, h4, bind, Except.bind]
        · rcases h5 : L.odeint (dot (dot Rinv AB.2ᵀ) S) with e5 | y
          · simp [h1, h2, h3, h4, h5, bind, Except.bind]
          · simp [h1, h2, h3, h4, h5, bind, Except.bind, pure, Except.pure]

/-- C5: because `R = eye(3)`, its inverse is defined and equals `R`
itself, and the computed gain `K = dot(dot(inv(R), B.T), S)` collapses to
`dot(B.T, S)` for every `B` and `S`. -/
theorem inv_R_eq_R_and_K_collapses :
    inv R = R ∧
    ∀ (B : Matrix (Fin 6) (Fin 3) ℚ) (S : Matrix (Fin 6) (Fin 6) ℚ),
      K B S = dot Bᵀ S := by
  exact ⟨inv_eye 3, fun B S => K_eq B S⟩

/-- C6: the `controller` function as shipped takes no parameters and
returns `None` on every invocation: no joint torques are produced for any
state or time before the solution snippet is loaded. -/
theorem controller_stub_returns_none : ∀ u : Unit, controller u = none :=
  fun _ => rfl

/-- C7: every numeric matrix the notebook produces comes either directly
from a single external library call or from such results by standard array
algebra alone (transpose, inverse, matrix product): the provenance terms
of `A`, `B`, `Q`, `R`, `S`, `K` contain no originally implemented
numerical routine, and `K` itself is exactly the array-algebra expression
over the library results. -/
theorem matrices_delegated_to_libraries :
    delegated originA = true ∧ delegated originB = true ∧
    delegated originQ = true ∧ delegated originR = true ∧
    delegated originS = true ∧ delegated originK = true ∧
    (∀ (B : Matrix (Fin 6) (Fin 3) ℚ) (S : Matrix (Fin 6) (Fin 6) ℚ),
      K B S = dot (dot (inv R) Bᵀ) S) :=
  ⟨rfl, rfl, rfl, rfl, rfl, rfl, fun _ _ => rfl⟩

/-- C8: execution is sequential and deterministic: two executions of the
same cell list from equal inputs and equal initial interpreter states end
in equal final states, so every produced value (`equilibrium_dict`, `A`,
`B`, `S`, `K`, ...) is identical between the two runs. -/
theorem notebook_runs_deterministic (I1 I2 : Inputs)
    (s1 s2 t1 t2 : NotebookState) (cs : List Cell)
    (hI : I1 = I2) (hs : s1 = s2)
    (h1 : Exec I1 s1 cs t1) (h2 : Exec I2 s2 cs t2) : t1 = t2 := by
  subst hI
  subst hs
  induction h1 generalizing t2 with
  | nil s => cases h2 with | nil => rfl
  | cons s c cs t h ih => cases h2 with | cons _ _ _ _ h2t => exact ih _ h2t

/-- Witness for C8: two runs of the full cell sequence from the concrete
inputs agree. -/
theorem notebook_runs_deterministic_witness :
    runCells Iex initState program = runCells Iex initState program :=
  notebook_runs_deterministic Iex Iex initState initState
    (runCells Iex initState program) (runCells Iex initState program) program
    rfl rfl (exec_runCells Iex program initState)
    (exec_runCells Iex program initState)

/-- C9: the notebook has no external effect other than in-session display:
its effect trace consists only of displays and reads of its own
exercise-solution files, and contains no file write, no persistent state,
and no network emission. -/
theorem effects_are_display_only :
    (∀ e ∈ programEffects, e = Effect.display ∨ e = Effect.fileRead) ∧
    Effect.fileWrite ∉ programEffects ∧
    Effect.persistState ∉ programEffects ∧
    Effect.networkSend ∉ programEffects := by
  decide

/-- C10: `linearizer.r = Matrix(specified)` changes only the
input-ordering attribute `r` of the linearizer (`f`, `q` and hence the
state Jacobian are untouched), and in the subsequent linearization column
`j` of `B` corresponds to input `specified j`: when the new ordering is a
permutation `σ` of the ordering the library chose, the new column `j` is
the old column `σ j`. -/
theorem setR_changes_only_input_order {n m : ℕ} (l : Linearizer n m)
    (v : Fin m → Sym) (σ : Equiv.Perm (Fin m))
    (hperm : ∀ j, v j = l.r (σ j)) :
    (setR l v).r = v ∧ (setR l v).f = l.f ∧ (setR l v).q = l.q ∧
    (∀ env : Sym → ℚ, linA (setR l v) env = linA l env) ∧
    (∀ (env : Sym → ℚ) (i : Fin n) (j : Fin m),
      linB (setR l v) env i j = linB l env i (σ j)) := by
  refine ⟨rfl, rfl, rfl, fun env => rfl, ?_⟩
  intro env i j
  show ((l.f i).deriv (v j)).eval env = ((l.f i).deriv (l.r (σ j))).eval env
  rw [hperm j]

/-- Witness for C10: assigning the swapped input list to the concrete
linearizer. -/
theorem setR_changes_only_input_order_witness :
    (∀ j, vex j = lex.r (Equiv.swap 0 1 j)) ∧ (setR lex vex).r = vex :=
  ⟨by decide,
   (setR_changes_only_input_order lex vex (Equiv.swap 0 1) (by decide)).1⟩

end HumanStanding
